import Mathlib

/-!
Verification of the conversation-context manager of the ChatbotPyOpenAi
repository (src/chatbotpyopenai.py), as a shallow embedding in Lean 4.

Modelling conventions, mirroring the Python source:
  - the tokenizer (tiktoken) is a pluggable pure function `enc : String → Nat`
    applied to the JSON projection of a message, exactly as
    `ChatMessage.get_tokenlen` does in the source;
  - the remote completion service is an oracle value: each call site is given
    the service's eventual answer as an `Option String` (`some text` = an
    HTTP 200 body's `choices[0].message.content`, after any number of 429
    retries; `none` = a non-retryable failure, where `get_response` returns
    Python `None`);
  - a Python list that may contain `None` (the context list and the history
    can, after a failed service call) is a `List (Option ChatMessage)`;
    an ordinary message is a `some` entry and Python `None` is `none`;
  - an operation that can raise (e.g. an `AttributeError` from calling a
    method on `None`) returns an `Option`, `none` meaning the exception;
  - the unbounded `while` loop of `get_prepared_context` is given explicit
    fuel; a successful return of the Python function is a run in which the
    loop exits by its condition within the fuel;
  - `creation_time` is an abstract `Nat` stamp supplied by the caller
    (`datetime.now()` in the source); no observable behaviour depends on it.
-/

/-- Constant API_TOKEN_LIMIT from the source: total tokens allowed per call. -/
def API_TOKEN_LIMIT : Nat := 4096

/-- Constant MAX_TOKENS from the source: tokens reserved for the response. -/
def MAX_TOKENS : Nat := 800

/-- Constant SUMMARY_PROMPT from the source. -/
def SUMMARY_PROMPT : String := "Summarize this conversation so far."

/-- Constant TEMPERATURE from the source. -/
def TEMPERATURE : Nat := 1

/-- Constant API_MODEL from the source. -/
def API_MODEL : String := "gpt-3.5-turbo"

/-- The role/content pair produced by `ChatMessage.to_dict`. -/
structure RoleContent where
  role : String
  content : String
deriving DecidableEq

/-- A chat message (class ChatMessage). The cached `tokenlen` attribute of the
source is omitted: it is written in `__init__` and never read (every use site
calls the method `get_tokenlen()`, which recomputes it). -/
structure ChatMessage where
  role : String
  content : String
  creation_time : Nat
deriving DecidableEq

/-- ChatMessage.to_dict: the role/content wire projection. -/
def ChatMessage.to_dict (m : ChatMessage) : RoleContent :=
  RoleContent.mk m.role m.content

/-- Escaping of one character, modelling the common-case behaviour of Python
json.dumps on the characters that occur in chat text. -/
def jsonEscapeChar (c : Char) : String :=
  if c = '\\' then "\\\\"
  else if c = '\"' then "\\\""
  else if c = '\n' then "\\n"
  else if c = '\t' then "\\t"
  else if c = '\r' then "\\r"
  else String.singleton c

/-- Escaping of a string for JSON output, modelling json.dumps. -/
def jsonEscape (s : String) : String :=
  String.join (s.toList.map jsonEscapeChar)

/-- json.dumps of one role/content dict, with json.dumps default separators. -/
def jsonDumpsPair (rc : RoleContent) : String :=
  "\x7b\"role\": \"" ++ jsonEscape rc.role ++ "\", \"content\": \""
    ++ jsonEscape rc.content ++ "\"\x7d"

/-- json.dumps of a list of role/content dicts. -/
def jsonDumpsList (l : List RoleContent) : String :=
  "[" ++ String.intercalate ", " (l.map jsonDumpsPair) ++ "]"

/-- ChatMessage.to_json: json.dumps of the to_dict projection. -/
def ChatMessage.to_json (m : ChatMessage) : String :=
  jsonDumpsPair (ChatMessage.to_dict m)

/-- ChatMessage.get_tokenlen: the length of the tiktoken encoding of to_json,
for the abstract encoder enc. -/
def ChatMessage.get_tokenlen (enc : String → Nat) (m : ChatMessage) : Nat :=
  enc (ChatMessage.to_json m)

/-- Python str.strip() with no argument strips these characters. -/
def isPythonSpace (c : Char) : Bool :=
  c == ' ' || c == '\t' || c == '\n' || c == '\r'
    || c == Char.ofNat 11 || c == Char.ofNat 12

/-- Python str.strip(): drop leading and trailing whitespace. -/
def pyStrip (s : String) : String :=
  String.mk (((s.toList.dropWhile isPythonSpace).reverse.dropWhile
    isPythonSpace).reverse)

/-- The shape of the value bound to the `messages` key of the request body.
`submit_prompt` passes a Python list of role/content dicts; `summarize_context`
passes the json.dumps string of such a list. -/
inductive MessagesPayload where
  | list (msgs : List RoleContent) : MessagesPayload
  | str (s : String) : MessagesPayload
deriving DecidableEq

/-- The request body built by ChatCompletionApi.get_response (the `data`
dict): messages, temperature, max_tokens, model. -/
structure ApiRequest where
  messages : MessagesPayload
  temperature : Nat
  max_tokens : Nat
  model : String
deriving DecidableEq

/-- The `data` dict of ChatCompletionApi.get_response for a message_list. -/
def ChatCompletionApi.request_data (message_list : MessagesPayload) : ApiRequest :=
  ApiRequest.mk message_list TEMPERATURE MAX_TOKENS API_MODEL

/-- ChatCompletionApi.get_response. `serviceResponse` is the service's
eventual answer (`some completion-text` after any 429 retries, `none` for a
non-retryable status, where the source prints the error and returns None).
On success the source builds ChatMessage(role, content.strip()); the `role`
parameter defaults to "user" in the source and is passed explicitly here. -/
def ChatCompletionApi.get_response (serviceResponse : Option String) (now : Nat)
    (message_list : MessagesPayload) (role : String) : Option ChatMessage :=
  Option.map (fun completion => ChatMessage.mk role (pyStrip completion) now)
    serviceResponse

/-- A personality (class Personality). -/
structure Personality where
  name : String
  description : String
  system_prompt : String
deriving DecidableEq

/-- Personality.get_personality_prompt: a fresh system ChatMessage. -/
def Personality.get_personality_prompt (p : Personality) (now : Nat) : ChatMessage :=
  ChatMessage.mk "system" p.system_prompt now

/-- The conversation context (class Context). Entries are `Option` because the
source can splice Python None into the list (a failed summarization). -/
structure Context where
  context_list : List (Option ChatMessage)
  summary_message : ChatMessage
deriving DecidableEq

/-- Context.__init__. -/
def Context.init (personality : Personality) (tPinned tSummary : Nat) : Context :=
  Context.mk [some (Personality.get_personality_prompt personality tPinned)]
    (ChatMessage.mk "user" SUMMARY_PROMPT tSummary)

/-- The tail of a context, in the spec's vocabulary: context_list[1:], the
part following the pinned message. -/
def Context.tail (ctx : Context) : List (Option ChatMessage) :=
  ctx.context_list.drop 1

/-- Sum of m.get_tokenlen() over a Python list; a None entry raises
(AttributeError), modelled as `none`. -/
def sumTokens (enc : String → Nat) : List (Option ChatMessage) → Option Nat
  | [] => some 0
  | none :: _ => none
  | some m :: rest =>
      Option.map (fun t => ChatMessage.get_tokenlen enc m + t) (sumTokens enc rest)

/-- Context.get_context_tokenlen: sum of get_tokenlen over context_list. -/
def Context.get_context_tokenlen (enc : String → Nat) (ctx : Context) : Option Nat :=
  sumTokens enc ctx.context_list

/-- Sequencing of a Python list comprehension that raises on a None entry. -/
def seqOpt {α : Type} : List (Option α) → Option (List α)
  | [] => some []
  | none :: _ => none
  | some a :: rest => Option.map (fun l => a :: l) (seqOpt rest)

/-- The string `prepared_summary_list` of Context.summarize_context:
json.dumps([m.to_dict() for m in context_list + [summary_message]]);
`none` models the exception raised if some entry is Python None. -/
def Context.prepared_summary_list (ctx : Context) : Option String :=
  Option.map jsonDumpsList
    (seqOpt ((ctx.context_list ++ [some ctx.summary_message]).map
      (fun o => Option.map ChatMessage.to_dict o)))

/-- The message_list value that summarize_context passes to
ChatCompletionApi.get_response: the json.dumps STRING, not the list itself. -/
def Context.summarize_request (ctx : Context) : Option MessagesPayload :=
  Option.map MessagesPayload.str (Context.prepared_summary_list ctx)

/-- Context.summarize_context. Outer `none` = exception while building the
payload; otherwise the result of get_response (which is Python None, i.e.
inner `none`, on a non-retryable service failure). -/
def Context.summarize_context (resp : Option String) (now : Nat) (ctx : Context) :
    Option (Option ChatMessage) :=
  Option.map
    (fun payload => ChatCompletionApi.get_response resp now payload "user")
    (Context.summarize_request ctx)

/-- del context_list[1:9] from Context.prune_context. -/
def delOldestChunk (l : List (Option ChatMessage)) : List (Option ChatMessage) :=
  l.take 1 ++ l.drop 9

/-- context_list.insert(1, x) from Context.prune_context. -/
def insertAtOne (x : Option ChatMessage) (l : List (Option ChatMessage)) :
    List (Option ChatMessage) :=
  l.take 1 ++ x :: l.drop 1

/-- Context.prune_context. Note the source splices unconditionally: even when
get_response returned None (a non-retryable service failure) the chunk is
deleted and None is inserted at index 1. Only an exception in
summarize_context (outer `none`) prevents the splice. -/
def Context.prune_context (resp : Option String) (now : Nat) (ctx : Context) :
    Option Context :=
  Option.map
    (fun context_summary =>
      Context.mk (insertAtOne context_summary (delOldestChunk ctx.context_list))
        ctx.summary_message)
    (Context.summarize_context resp now ctx)

/-- The while loop of Context.get_prepared_context, with explicit fuel (one
unit per evaluation of the loop condition) and one oracle answer per pruning
round. Bool result: true = the loop exited by its condition (the Python loop
finished), false = fuel ran out or an exception was raised. -/
def Context.prepare_loop (enc : String → Nat) (prompt : ChatMessage) (now : Nat) :
    Nat → List (Option String) → Context → Context × Bool
  | 0, _, ctx => (ctx, false)
  | fuel + 1, responses, ctx =>
    match Context.get_context_tokenlen enc ctx with
    | none => (ctx, false)
    | some t =>
      if API_TOKEN_LIMIT <
          t + ChatMessage.get_tokenlen enc prompt + MAX_TOKENS
            + ChatMessage.get_tokenlen enc ctx.summary_message then
        match responses with
        | [] =>
          match Context.prune_context none now ctx with
          | some ctx1 => Context.prepare_loop enc prompt now fuel [] ctx1
          | none => (ctx, false)
        | r :: rest =>
          match Context.prune_context r now ctx with
          | some ctx1 => Context.prepare_loop enc prompt now fuel rest ctx1
          | none => (ctx, false)
      else
        (ctx, true)

/-- Context.get_prepared_context: prune while over budget, append the prompt,
return the to_dict projection of the whole list. The second component is
`none` when the Python call raises or the loop does not terminate within the
fuel; the first component is the context state reached regardless. -/
def Context.get_prepared_context (enc : String → Nat) (fuel : Nat)
    (responses : List (Option String)) (now : Nat) (prompt : ChatMessage)
    (ctx : Context) : Context × Option (List RoleContent) :=
  match Context.prepare_loop enc prompt now fuel responses ctx with
  | (ctx1, false) => (ctx1, none)
  | (ctx1, true) =>
    let ctx2 := Context.mk (ctx1.context_list ++ [some prompt]) ctx1.summary_message
    match seqOpt (ctx2.context_list.map (fun o => Option.map ChatMessage.to_dict o)) with
    | some prepared_context => (ctx2, some prepared_context)
    | none => (ctx2, none)

/-- Context.reset_context: del context_list[1:]. -/
def Context.reset_context (ctx : Context) : Context :=
  Context.mk (ctx.context_list.take 1) ctx.summary_message

/-- The chat orchestrator (class ChatManager). History entries are `Option`
because update_history appends the raw return of get_response, which is
Python None after a non-retryable failure. -/
structure ChatManager where
  context : Context
  history : List (Option ChatMessage)
deriving DecidableEq

/-- ChatManager.__init__. The personality prompt is materialized twice in the
source (once for the context, once for history), hence two stamps. -/
def ChatManager.init (personality : Personality)
    (tPinned tSummary tHistory : Nat) : ChatManager :=
  ChatManager.mk (Context.init personality tPinned tSummary)
    [some (Personality.get_personality_prompt personality tHistory)]

/-- ChatManager.get_history: [m.to_dict() for m in history]; raises (none) if
some entry is Python None. -/
def ChatManager.get_history (cm : ChatManager) : Option (List RoleContent) :=
  seqOpt (cm.history.map (fun o => Option.map ChatMessage.to_dict o))

/-- ChatManager.reset_chat: reset the context and del history[1:]. -/
def ChatManager.reset_chat (cm : ChatManager) : ChatManager :=
  ChatManager.mk (Context.reset_context cm.context) (cm.history.take 1)

/-- ChatManager.update_history: append prompt then response (even if the
response is Python None). -/
def ChatManager.update_history (cm : ChatManager) (prompt : ChatMessage)
    (response : Option ChatMessage) : ChatManager :=
  ChatManager.mk cm.context (cm.history ++ [some prompt, response])

/-- ChatManager.submit_prompt. `respMain` is the oracle answer for the main
completion call; `responses` are the answers for the pruning rounds inside
get_prepared_context. Outer `none` result = the call raised inside
get_prepared_context (history untouched, context left as mutated). -/
def ChatManager.submit_prompt (enc : String → Nat) (fuel : Nat)
    (responses : List (Option String)) (respMain : Option String) (now : Nat)
    (prompt : ChatMessage) (cm : ChatManager) :
    ChatManager × Option (Option ChatMessage) :=
  match Context.get_prepared_context enc fuel responses now prompt cm.context with
  | (ctx1, none) => (ChatManager.mk ctx1 cm.history, none)
  | (ctx1, some json_context) =>
    let response := ChatCompletionApi.get_response respMain now
      (MessagesPayload.list json_context) "assistant"
    ((ChatManager.mk ctx1 cm.history).update_history prompt response,
      some response)

/-- A call on a Context, with the oracle data (fuel, service answers, clock)
the call consumes. -/
inductive ContextOp where
  | prepare (fuel : Nat) (responses : List (Option String)) (now : Nat)
      (prompt : ChatMessage) : ContextOp
  | prune (resp : Option String) (now : Nat) : ContextOp
  | reset : ContextOp
deriving DecidableEq

/-- State reached by one Context call. A prune whose summarize step raises
leaves the state unchanged (the exception fires before the splice). -/
def ContextOp.apply (enc : String → Nat) (ctx : Context) : ContextOp → Context
  | ContextOp.prepare fuel responses now prompt =>
      (Context.get_prepared_context enc fuel responses now prompt ctx).fst
  | ContextOp.prune resp now =>
      match Context.prune_context resp now ctx with
      | some ctx1 => ctx1
      | none => ctx
  | ContextOp.reset => Context.reset_context ctx

/-- The context state after a sequence of calls on a fresh Context. -/
def runContext (enc : String → Nat) (personality : Personality)
    (tPinned tSummary : Nat) (ops : List ContextOp) : Context :=
  ops.foldl (ContextOp.apply enc) (Context.init personality tPinned tSummary)

/-- A call on a ChatManager, with its oracle data. -/
inductive ManagerOp where
  | submit (fuel : Nat) (responses : List (Option String))
      (respMain : Option String) (now : Nat) (prompt : ChatMessage) : ManagerOp
  | reset : ManagerOp
deriving DecidableEq

/-- State reached by one ChatManager call. -/
def ManagerOp.apply (enc : String → Nat) (cm : ChatManager) : ManagerOp → ChatManager
  | ManagerOp.submit fuel responses respMain now prompt =>
      (ChatManager.submit_prompt enc fuel responses respMain now prompt cm).fst
  | ManagerOp.reset => ChatManager.reset_chat cm

/-- The manager state after a sequence of calls on a fresh ChatManager. -/
def runManager (enc : String → Nat) (personality : Personality)
    (tPinned tSummary tHistory : Nat) (ops : List ManagerOp) : ChatManager :=
  ops.foldl (ManagerOp.apply enc)
    (ChatManager.init personality tPinned tSummary tHistory)

/-- The successful summarization texts an op's oracle data can deliver. -/
def ManagerOp.summaryTexts : ManagerOp → List String
  | ManagerOp.submit _ responses _ _ _ => responses.filterMap id
  | ManagerOp.reset => []

/-- All successful summarization texts available along a trace. -/
def opsSummaryTexts : List ManagerOp → List String
  | [] => []
  | op :: rest => ManagerOp.summaryTexts op ++ opsSummaryTexts rest

/-- A message occurs in a history, up to the role/content projection. -/
def pairInHistory (hist : List (Option ChatMessage)) (m : ChatMessage) : Prop :=
  ∃ h, some h ∈ hist ∧ ChatMessage.to_dict h = ChatMessage.to_dict m

/-! ## Helper lemmas -/

theorem sumTokens_append (enc : String → Nat) (m : ChatMessage) :
    ∀ (l : List (Option ChatMessage)) (t : Nat), sumTokens enc l = some t →
      sumTokens enc (l ++ [some m]) = some (t + ChatMessage.get_tokenlen enc m) := by
  intro l
  induction l with
  | nil =>
    intro t ht
    simp [sumTokens] at ht
    subst ht
    simp [sumTokens]
  | cons o rest ih =>
    intro t ht
    cases o with
    | none => simp [sumTokens] at ht
    | some a =>
      simp [sumTokens] at ht
      obtain ⟨t1, ht1, rfl⟩ := ht
      simp [sumTokens, ih t1 ht1]
      omega

theorem sumTokens_allSome (enc : String → Nat) :
    ∀ (l : List (Option ChatMessage)) (t : Nat), sumTokens enc l = some t →
      ∃ ms : List ChatMessage, l = ms.map some := by
  intro l
  induction l with
  | nil => exact fun t _ => ⟨[], rfl⟩
  | cons o rest ih =>
    intro t ht
    cases o with
    | none => simp [sumTokens] at ht
    | some a =>
      simp [sumTokens] at ht
      obtain ⟨t1, ht1, _⟩ := ht
      obtain ⟨ms, hms⟩ := ih t1 ht1
      exact ⟨a :: ms, by simp [hms]⟩

theorem seqOpt_map_some {α β : Type} (f : α → β) :
    ∀ ms : List α,
      seqOpt (ms.map (fun a => some (f a))) = some (ms.map f) := by
  intro ms
  induction ms with
  | nil => rfl
  | cons a rest ih => simp [seqOpt, ih]

theorem map_optmap_of_map_some {α β : Type} (f : α → β) (ms : List α)
    (l : List (Option α)) (hl : l = ms.map some) :
    l.map (fun o => Option.map f o) = ms.map (fun a => some (f a)) := by
  subst hl
  simp

theorem prune_context_eq (resp : Option String) (now : Nat) (ctx ctx1 : Context)
    (h : Context.prune_context resp now ctx = some ctx1) :
    ctx1.context_list
      = insertAtOne
          (Option.map (fun s => ChatMessage.mk "user" (pyStrip s) now) resp)
          (delOldestChunk ctx.context_list)
    ∧ ctx1.summary_message = ctx.summary_message := by
  unfold Context.prune_context Context.summarize_context at h
  cases hsr : Context.summarize_request ctx with
  | none => rw [hsr] at h; simp at h
  | some pl =>
    rw [hsr] at h
    simp [ChatCompletionApi.get_response] at h
    subst h
    exact ⟨rfl, rfl⟩

theorem prune_context_cons (resp : Option String) (now : Nat) (ctx ctx1 : Context)
    (c : Option ChatMessage) (tl : List (Option ChatMessage))
    (hl : ctx.context_list = c :: tl)
    (h : Context.prune_context resp now ctx = some ctx1) :
    ctx1.context_list
      = c :: Option.map (fun s => ChatMessage.mk "user" (pyStrip s) now) resp
          :: tl.drop 8
    ∧ ctx1.summary_message = ctx.summary_message := by
  obtain ⟨h1, h2⟩ := prune_context_eq resp now ctx ctx1 h
  rw [hl] at h1
  simp [delOldestChunk, insertAtOne] at h1
  exact ⟨h1, h2⟩

theorem prune_context_head (resp : Option String) (now : Nat) (ctx ctx1 : Context)
    (c : Option ChatMessage) (hc : ctx.context_list.head? = some c)
    (h : Context.prune_context resp now ctx = some ctx1) :
    ctx1.context_list.head? = some c := by
  cases hl : ctx.context_list with
  | nil => rw [hl] at hc; cases hc
  | cons c0 tl =>
    rw [hl] at hc
    simp at hc
    obtain ⟨h1, _⟩ := prune_context_cons resp now ctx ctx1 c0 tl hl h
    rw [h1, hc]
    rfl

theorem mem_insertAtOne_delOldest {x y : Option ChatMessage}
    {l : List (Option ChatMessage)} (hy : y ∈ insertAtOne x (delOldestChunk l)) :
    y = x ∨ y ∈ l := by
  have hsub : delOldestChunk l ⊆ l := by
    intro z hz
    rcases List.mem_append.mp hz with hz1 | hz2
    · exact List.take_subset _ _ hz1
    · exact List.drop_subset _ _ hz2
  unfold insertAtOne at hy
  rcases List.mem_append.mp hy with h1 | h2
  · exact Or.inr (hsub (List.take_subset _ _ h1))
  · rcases List.mem_cons.mp h2 with h3 | h4
    · exact Or.inl h3
    · exact Or.inr (hsub (List.drop_subset _ _ h4))

theorem prepare_loop_zero (enc : String → Nat) (prompt : ChatMessage) (now : Nat)
    (responses : List (Option String)) (ctx : Context) :
    Context.prepare_loop enc prompt now 0 responses ctx = (ctx, false) := rfl

theorem prepare_loop_succ (enc : String → Nat) (prompt : ChatMessage) (now : Nat)
    (fuel : Nat) (responses : List (Option String)) (ctx : Context) :
    Context.prepare_loop enc prompt now (fuel + 1) responses ctx =
      match Context.get_context_tokenlen enc ctx with
      | none => (ctx, false)
      | some t =>
        if API_TOKEN_LIMIT <
            t + ChatMessage.get_tokenlen enc prompt + MAX_TOKENS
              + ChatMessage.get_tokenlen enc ctx.summary_message then
          match responses with
          | [] =>
            match Context.prune_context none now ctx with
            | some ctx1 => Context.prepare_loop enc prompt now fuel [] ctx1
            | none => (ctx, false)
          | r :: rest =>
            match Context.prune_context r now ctx with
            | some ctx1 => Context.prepare_loop enc prompt now fuel rest ctx1
            | none => (ctx, false)
        else
          (ctx, true) := rfl

theorem prepare_loop_head (enc : String → Nat) (prompt : ChatMessage) (now : Nat) :
    ∀ (fuel : Nat) (responses : List (Option String)) (ctx : Context)
      (c : Option ChatMessage), ctx.context_list.head? = some c →
      ((Context.prepare_loop enc prompt now fuel responses ctx).fst).context_list.head?
        = some c := by
  intro fuel
  induction fuel with
  | zero => intro responses ctx c hc; exact hc
  | succ fuel ih =>
    intro responses ctx c hc
    rw [prepare_loop_succ]
    cases ht : Context.get_context_tokenlen enc ctx with
    | none => exact hc
    | some t =>
      dsimp only
      by_cases hcond : API_TOKEN_LIMIT <
          t + ChatMessage.get_tokenlen enc prompt + MAX_TOKENS
            + ChatMessage.get_tokenlen enc ctx.summary_message
      · rw [if_pos hcond]
        cases responses with
        | nil =>
          cases hp : Context.prune_context none now ctx with
          | none => exact hc
          | some ctxp => exact ih [] ctxp c (prune_context_head _ _ _ _ c hc hp)
        | cons r rest =>
          dsimp only
          cases hp : Context.prune_context r now ctx with
          | none => exact hc
          | some ctxp => exact ih rest ctxp c (prune_context_head _ _ _ _ c hc hp)
      · rw [if_neg hcond]
        exact hc

theorem prepare_loop_success (enc : String → Nat) (prompt : ChatMessage) (now : Nat) :
    ∀ (fuel : Nat) (responses : List (Option String)) (ctx ctx1 : Context),
      Context.prepare_loop enc prompt now fuel responses ctx = (ctx1, true) →
      ∃ t, Context.get_context_tokenlen enc ctx1 = some t ∧
        t + ChatMessage.get_tokenlen enc prompt + MAX_TOKENS
          + ChatMessage.get_tokenlen enc ctx1.summary_message ≤ API_TOKEN_LIMIT := by
  intro fuel
  induction fuel with
  | zero =>
    intro responses ctx ctx1 h
    rw [prepare_loop_zero] at h
    simp at h
  | succ fuel ih =>
    intro responses ctx ctx1 h
    rw [prepare_loop_succ] at h
    cases ht : Context.get_context_tokenlen enc ctx with
    | none => rw [ht] at h; simp at h
    | some t =>
      rw [ht] at h
      dsimp only at h
      by_cases hcond : API_TOKEN_LIMIT <
          t + ChatMessage.get_tokenlen enc prompt + MAX_TOKENS
            + ChatMessage.get_tokenlen enc ctx.summary_message
      · rw [if_pos hcond] at h
        cases responses with
        | nil =>
          cases hp : Context.prune_context none now ctx with
          | none => rw [hp] at h; simp at h
          | some ctxp => rw [hp] at h; exact ih [] ctxp ctx1 h
        | cons r rest =>
          dsimp only at h
          cases hp : Context.prune_context r now ctx with
          | none => rw [hp] at h; simp at h
          | some ctxp => rw [hp] at h; exact ih rest ctxp ctx1 h
      · rw [if_neg hcond] at h
        simp at h
        obtain ⟨rfl, -⟩ := h
        exact ⟨t, ht, by omega⟩

theorem prepare_loop_mem (enc : String → Nat) (prompt : ChatMessage) (now : Nat) :
    ∀ (fuel : Nat) (responses : List (Option String)) (ctx : Context)
      (m : ChatMessage),
      some m ∈ ((Context.prepare_loop enc prompt now fuel responses ctx).fst).context_list →
      some m ∈ ctx.context_list
        ∨ ∃ s ∈ responses.filterMap id, m = ChatMessage.mk "user" (pyStrip s) now := by
  intro fuel
  induction fuel with
  | zero => intro responses ctx m hm; exact Or.inl hm
  | succ fuel ih =>
    intro responses ctx m hm
    rw [prepare_loop_succ] at hm
    cases ht : Context.get_context_tokenlen enc ctx with
    | none => rw [ht] at hm; exact Or.inl hm
    | some t =>
      rw [ht] at hm
      dsimp only at hm
      by_cases hcond : API_TOKEN_LIMIT <
          t + ChatMessage.get_tokenlen enc prompt + MAX_TOKENS
            + ChatMessage.get_tokenlen enc ctx.summary_message
      · rw [if_pos hcond] at hm
        cases responses with
        | nil =>
          cases hp : Context.prune_context none now ctx with
          | none => rw [hp] at hm; exact Or.inl hm
          | some ctxp =>
            rw [hp] at hm
            rcases ih [] ctxp m hm with h1 | h2
            · obtain ⟨he, -⟩ := prune_context_eq _ _ _ _ hp
              rw [he] at h1
              rcases mem_insertAtOne_delOldest h1 with h3 | h4
              · cases h3
              · exact Or.inl h4
            · obtain ⟨s, hs, -⟩ := h2
              simp at hs
        | cons r rest =>
          dsimp only at hm
          cases hp : Context.prune_context r now ctx with
          | none => rw [hp] at hm; exact Or.inl hm
          | some ctxp =>
            rw [hp] at hm
            rcases ih rest ctxp m hm with h1 | h2
            · obtain ⟨he, -⟩ := prune_context_eq _ _ _ _ hp
              rw [he] at h1
              rcases mem_insertAtOne_delOldest h1 with h3 | h4
              · cases r with
                | none => cases h3
                | some s =>
                  simp at h3
                  refine Or.inr ⟨s, ?_, h3⟩
                  show s ∈ List.filterMap id (some s :: rest)
                  rw [List.filterMap_cons]
                  exact List.mem_cons_self s _
              · exact Or.inl h4
            · obtain ⟨s, hs, heq2⟩ := h2
              refine Or.inr ⟨s, ?_, heq2⟩
              cases r with
              | none =>
                show s ∈ List.filterMap id (none :: rest)
                rw [List.filterMap_cons]
                exact hs
              | some s0 =>
                show s ∈ List.filterMap id (some s0 :: rest)
                rw [List.filterMap_cons]
                exact List.mem_cons_of_mem s0 hs
      · rw [if_neg hcond] at hm
        exact Or.inl hm

theorem get_prepared_context_none (enc : String → Nat) (fuel : Nat)
    (responses : List (Option String)) (now : Nat) (prompt : ChatMessage)
    (ctx ctxr : Context)
    (h : Context.get_prepared_context enc fuel responses now prompt ctx
          = (ctxr, none)) :
    Context.prepare_loop enc prompt now fuel responses ctx = (ctxr, false) := by
  unfold Context.get_prepared_context at h
  rcases hl : Context.prepare_loop enc prompt now fuel responses ctx with ⟨ctx1, b⟩
  rw [hl] at h
  cases b with
  | false =>
    dsimp only at h
    simp at h
    rw [← h]
  | true =>
    dsimp only at h
    obtain ⟨t, ht, -⟩ := prepare_loop_success enc prompt now fuel responses ctx ctx1 hl
    obtain ⟨ms, hms⟩ := sumTokens_allSome enc _ t ht
    have hmap : (ctx1.context_list ++ [some prompt]).map
          (fun o => Option.map ChatMessage.to_dict o)
        = (ms ++ [prompt]).map (fun a => some (ChatMessage.to_dict a)) := by
      rw [hms]
      simp
    rw [hmap, seqOpt_map_some ChatMessage.to_dict (ms ++ [prompt])] at h
    dsimp only at h
    simp at h

theorem get_prepared_context_some (enc : String → Nat) (fuel : Nat)
    (responses : List (Option String)) (now : Nat) (prompt : ChatMessage)
    (ctx ctxr : Context) (out : List RoleContent)
    (h : Context.get_prepared_context enc fuel responses now prompt ctx
          = (ctxr, some out)) :
    ∃ ctx1 ms, Context.prepare_loop enc prompt now fuel responses ctx = (ctx1, true)
      ∧ ctx1.context_list = ms.map some
      ∧ ctxr = Context.mk ((ms ++ [prompt]).map some) ctx1.summary_message
      ∧ out = (ms ++ [prompt]).map ChatMessage.to_dict := by
  unfold Context.get_prepared_context at h
  rcases hl : Context.prepare_loop enc prompt now fuel responses ctx with ⟨ctx1, b⟩
  rw [hl] at h
  cases b with
  | false =>
    dsimp only at h
    simp at h
  | true =>
    dsimp only at h
    obtain ⟨t, ht, -⟩ := prepare_loop_success enc prompt now fuel responses ctx ctx1 hl
    obtain ⟨ms, hms⟩ := sumTokens_allSome enc _ t ht
    have hmap : (ctx1.context_list ++ [some prompt]).map
          (fun o => Option.map ChatMessage.to_dict o)
        = (ms ++ [prompt]).map (fun a => some (ChatMessage.to_dict a)) := by
      rw [hms]
      simp
    rw [hmap, seqOpt_map_some ChatMessage.to_dict (ms ++ [prompt])] at h
    dsimp only at h
    injection h with h1 h2
    injection h2 with h3
    refine ⟨ctx1, ms, rfl, hms, ?_, h3.symm⟩
    rw [← h1, hms]
    simp

theorem head?_append_left {α : Type} {l l2 : List α} {c : α}
    (h : l.head? = some c) : (l ++ l2).head? = some c := by
  cases l with
  | nil => cases h
  | cons a t => simpa using h

theorem contextOp_apply_head (enc : String → Nat) (op : ContextOp) (ctx : Context)
    (c : Option ChatMessage) (hc : ctx.context_list.head? = some c) :
    (ContextOp.apply enc ctx op).context_list.head? = some c := by
  cases op with
  | prepare fuel responses now prompt =>
    dsimp only [ContextOp.apply]
    rcases hg : Context.get_prepared_context enc fuel responses now prompt ctx
      with ⟨ctxr, o⟩
    cases o with
    | none =>
      have h1 := get_prepared_context_none enc fuel responses now prompt ctx ctxr hg
      have h2 := prepare_loop_head enc prompt now fuel responses ctx c hc
      rw [h1] at h2
      exact h2
    | some out =>
      obtain ⟨ctx1, ms, hl, hms, hctxr, -⟩ :=
        get_prepared_context_some enc fuel responses now prompt ctx ctxr out hg
      have h2 := prepare_loop_head enc prompt now fuel responses ctx c hc
      rw [hl] at h2
      rw [hctxr]
      show ((ms ++ [prompt]).map some).head? = some c
      rw [List.map_append]
      exact head?_append_left (by rw [← hms]; exact h2)
  | prune resp now =>
    dsimp only [ContextOp.apply]
    cases hp : Context.prune_context resp now ctx with
    | none => exact hc
    | some ctx1 => exact prune_context_head resp now ctx ctx1 c hc hp
  | reset =>
    dsimp only [ContextOp.apply, Context.reset_context]
    cases hl : ctx.context_list with
    | nil => rw [hl] at hc; cases hc
    | cons a t => rw [hl] at hc; simpa using hc

theorem foldl_contextOps_head (enc : String → Nat) (c : Option ChatMessage) :
    ∀ (ops : List ContextOp) (ctx : Context), ctx.context_list.head? = some c →
      (ops.foldl (ContextOp.apply enc) ctx).context_list.head? = some c := by
  intro ops
  induction ops with
  | nil => intro ctx hc; exact hc
  | cons op rest ih =>
    intro ctx hc
    exact ih _ (contextOp_apply_head enc op ctx c hc)

/-- C1: for every context state and every prompt, after a call to
get_prepared_context(prompt) that returns successfully (all pruning rounds
inside it succeeded and the loop exited), the total token count of the
resulting context list (pinned plus tail, the tail including the
just-appended prompt) plus MAX_TOKENS plus the token count of the
summary-request message is at most API_TOKEN_LIMIT. -/
theorem C1_budget_invariant (enc : String → Nat) (fuel : Nat)
    (responses : List (Option String)) (now : Nat) (prompt : ChatMessage)
    (ctx ctx2 : Context) (out : List RoleContent)
    (h : Context.get_prepared_context enc fuel responses now prompt ctx
          = (ctx2, some out)) :
    ∃ t, Context.get_context_tokenlen enc ctx2 = some t ∧
      t + MAX_TOKENS + ChatMessage.get_tokenlen enc ctx2.summary_message
        ≤ API_TOKEN_LIMIT := by
  obtain ⟨ctx1, ms, hl, hms, hctxr, -⟩ :=
    get_prepared_context_some enc fuel responses now prompt ctx ctx2 out h
  obtain ⟨t, ht, hb⟩ := prepare_loop_success enc prompt now fuel responses ctx ctx1 hl
  have happ := sumTokens_append enc prompt ctx1.context_list t ht
  refine ⟨t + ChatMessage.get_tokenlen enc prompt, ?_, ?_⟩
  · rw [hctxr]
    show sumTokens enc ((ms ++ [prompt]).map some) = _
    have hsplit : (ms ++ [prompt]).map some = ctx1.context_list ++ [some prompt] := by
      rw [hms]
      simp
    rw [hsplit]
    exact happ
  · have hsm : ctx2.summary_message = ctx1.summary_message := by rw [hctxr]
    rw [hsm]
    omega

/-- C5: the pinned system message is present, unchanged, and at position 0 of
the context list after every finite sequence of get_prepared_context,
prune_context and reset_context calls applied to a freshly created Context. -/
theorem C5_pinned_first (enc : String → Nat) (personality : Personality)
    (tPinned tSummary : Nat) (ops : List ContextOp) :
    (runContext enc personality tPinned tSummary ops).context_list.head?
      = some (some (Personality.get_personality_prompt personality tPinned)) := by
  exact foldl_contextOps_head enc
    (some (Personality.get_personality_prompt personality tPinned)) ops
    (Context.init personality tPinned tSummary) rfl

/-- C6: reset_context is idempotent; after a reset the tail is empty and
get_context_tokenlen is exactly the token count of the pinned message alone. -/
theorem C6_reset_idempotent (enc : String → Nat) (ctx : Context) (pm : ChatMessage)
    (hpm : ctx.context_list.head? = some (some pm)) :
    Context.reset_context (Context.reset_context ctx) = Context.reset_context ctx
    ∧ Context.tail (Context.reset_context ctx) = []
    ∧ Context.get_context_tokenlen enc (Context.reset_context ctx)
        = some (ChatMessage.get_tokenlen enc pm) := by
  cases hl : ctx.context_list with
  | nil => rw [hl] at hpm; cases hpm
  | cons a t =>
    rw [hl] at hpm
    simp at hpm
    subst hpm
    refine ⟨?_, ?_, ?_⟩
    · simp [Context.reset_context, hl]
    · simp [Context.tail, Context.reset_context, hl]
    · simp [Context.get_context_tokenlen, Context.reset_context, hl, sumTokens]

/-- C9: a successful get_prepared_context appends the prompt as the last
element of the tail and returns the whole context list projected to
role/content pairs in order; the projection keeps exactly role and content
(no creation time, no token count). -/
theorem C9_prepare_appends_and_projects (enc : String → Nat) (fuel : Nat)
    (responses : List (Option String)) (now : Nat) (prompt : ChatMessage)
    (ctx ctx2 : Context) (out : List RoleContent) (c : Option ChatMessage)
    (hc : ctx.context_list.head? = some c)
    (h : Context.get_prepared_context enc fuel responses now prompt ctx
          = (ctx2, some out)) :
    (∃ ms : List ChatMessage, ctx2.context_list = ms.map some
      ∧ ms.getLast? = some prompt
      ∧ out = ms.map ChatMessage.to_dict)
    ∧ (Context.tail ctx2).getLast? = some (some prompt)
    ∧ (∀ m : ChatMessage, (ChatMessage.to_dict m).role = m.role
        ∧ (ChatMessage.to_dict m).content = m.content) := by
  obtain ⟨ctx1, ms, hl, hms, hctxr, hout⟩ :=
    get_prepared_context_some enc fuel responses now prompt ctx ctx2 out h
  have h2 := prepare_loop_head enc prompt now fuel responses ctx c hc
  rw [hl] at h2
  refine ⟨⟨ms ++ [prompt], by rw [hctxr], List.getLast?_concat _, hout⟩, ?_, ?_⟩
  · cases ms with
    | nil => rw [hms] at h2; cases h2
    | cons m0 ms1 =>
      rw [hctxr]
      simp only [Context.tail, List.cons_append, List.map_cons,
        List.drop_succ_cons, List.drop_zero, List.map_append]
      exact List.getLast?_concat _
  · intro m
    exact ⟨rfl, rfl⟩

/-- C10: for every successful completion-service response, the ChatMessage
built by get_response carries the role supplied by the caller, and its
content is the completion text stripped of leading and trailing whitespace;
the summarization call inside pruning supplies role "user". -/
theorem C10_response_role_and_content (s : String) (now : Nat)
    (ml : MessagesPayload) (role : String) (ctx : Context) :
    ChatCompletionApi.get_response (some s) now ml role
      = some (ChatMessage.mk role (pyStrip s) now)
    ∧ Context.summarize_context (some s) now ctx
      = Option.map (fun _ => some (ChatMessage.mk "user" (pyStrip s) now))
          (Context.summarize_request ctx) := by
  constructor
  · rfl
  · unfold Context.summarize_context
    cases Context.summarize_request ctx <;> rfl

def personality0 : Personality :=
  Personality.mk "Helpful" "A helpful assistant" "You are a helpful assistant."

def enc0 : String → Nat := fun _ => 0

def prompt0 : ChatMessage := ChatMessage.mk "user" "Hello" 5

def ctx0 : Context := Context.init personality0 0 1

def pinned0 : ChatMessage := Personality.get_personality_prompt personality0 0

def ctx0after : Context :=
  Context.mk [some pinned0, some prompt0] (ChatMessage.mk "user" SUMMARY_PROMPT 1)

def out0 : List RoleContent :=
  [RoleContent.mk "system" "You are a helpful assistant.",
    RoleContent.mk "user" "Hello"]

/-- Witness for C1: the budget bound holds after a concrete successful
get_prepared_context call. -/
theorem C1_budget_invariant_witness :
    ∃ t, Context.get_context_tokenlen enc0 ctx0after = some t ∧
      t + MAX_TOKENS + ChatMessage.get_tokenlen enc0 ctx0after.summary_message
        ≤ API_TOKEN_LIMIT :=
  C1_budget_invariant enc0 1 [] 7 prompt0 ctx0 ctx0after out0 (by decide)

/-- Witness for C6 at a concrete context. -/
theorem C6_reset_idempotent_witness :
    Context.reset_context (Context.reset_context ctx0) = Context.reset_context ctx0
    ∧ Context.tail (Context.reset_context ctx0) = []
    ∧ Context.get_context_tokenlen enc0 (Context.reset_context ctx0)
        = some (ChatMessage.get_tokenlen enc0 pinned0) :=
  C6_reset_idempotent enc0 ctx0 pinned0 (by decide)

/-- Witness for C9 at a concrete successful call. -/
theorem C9_prepare_appends_and_projects_witness :
    (∃ ms : List ChatMessage, ctx0after.context_list = ms.map some
      ∧ ms.getLast? = some prompt0
      ∧ out0 = ms.map ChatMessage.to_dict)
    ∧ (Context.tail ctx0after).getLast? = some (some prompt0)
    ∧ (∀ m : ChatMessage, (ChatMessage.to_dict m).role = m.role
        ∧ (ChatMessage.to_dict m).content = m.content) :=
  C9_prepare_appends_and_projects enc0 1 [] 7 prompt0 ctx0 ctx0after out0
    (some pinned0) (by decide) (by decide)

/-- C4 (amended): one successful prune round removes exactly min(8, len(tail))
messages from the front (oldest end) of the tail, inserts the returned summary
at position 0 of the remaining tail, and changes nothing else; for a tail of
length at least 2 the tail length strictly decreases; but for an empty tail
the round is NOT a no-op: it still inserts the summary, growing the tail from
length 0 to length 1. -/
theorem C4_prune_round (resp : String) (now : Nat) (ctx ctx1 : Context)
    (c : Option ChatMessage) (tl : List (Option ChatMessage))
    (hl : ctx.context_list = c :: tl)
    (h : Context.prune_context (some resp) now ctx = some ctx1) :
    ctx1.context_list
      = c :: some (ChatMessage.mk "user" (pyStrip resp) now) :: tl.drop 8
    ∧ ctx1.summary_message = ctx.summary_message
    ∧ Context.tail ctx1
      = some (ChatMessage.mk "user" (pyStrip resp) now) :: tl.drop 8
    ∧ tl.length + 1 = (Context.tail ctx1).length + min 8 tl.length
    ∧ (2 ≤ tl.length → (Context.tail ctx1).length < tl.length)
    ∧ (tl = [] →
        Context.tail ctx1 = [some (ChatMessage.mk "user" (pyStrip resp) now)]) := by
  obtain ⟨h1, h2⟩ := prune_context_cons (some resp) now ctx ctx1 c tl hl h
  have h1' : ctx1.context_list
      = c :: some (ChatMessage.mk "user" (pyStrip resp) now) :: tl.drop 8 := h1
  have htail : Context.tail ctx1
      = some (ChatMessage.mk "user" (pyStrip resp) now) :: tl.drop 8 := by
    simp [Context.tail, h1']
  have hlen : (Context.tail ctx1).length = 1 + (tl.length - 8) := by
    rw [htail]
    simp
    omega
  refine ⟨h1', h2, htail, by omega, by omega, ?_⟩
  intro htl
  rw [htail, htl]
  rfl

def pinnedW : ChatMessage := ChatMessage.mk "system" "P" 0

def tailMsgW : ChatMessage := ChatMessage.mk "user" "hi" 1

def ctxW : Context :=
  Context.mk [some pinnedW, some tailMsgW] (ChatMessage.mk "user" SUMMARY_PROMPT 0)

def ctxWpruned : Context :=
  Context.mk [some pinnedW, some (ChatMessage.mk "user" "sum" 9)]
    (ChatMessage.mk "user" SUMMARY_PROMPT 0)

/-- Witness for C4 at a concrete successful prune round. -/
theorem C4_prune_round_witness :
    ctxWpruned.context_list
      = some pinnedW :: some (ChatMessage.mk "user" (pyStrip "sum") 9)
          :: [some tailMsgW].drop 8
    ∧ ctxWpruned.summary_message = ctxW.summary_message
    ∧ Context.tail ctxWpruned
      = some (ChatMessage.mk "user" (pyStrip "sum") 9) :: [some tailMsgW].drop 8
    ∧ [some tailMsgW].length + 1
      = (Context.tail ctxWpruned).length + min 8 [some tailMsgW].length
    ∧ (2 ≤ [some tailMsgW].length →
        (Context.tail ctxWpruned).length < [some tailMsgW].length)
    ∧ ([some tailMsgW] = ([] : List (Option ChatMessage)) →
        Context.tail ctxWpruned
          = [some (ChatMessage.mk "user" (pyStrip "sum") 9)]) :=
  C4_prune_round "sum" 9 ctxW ctxWpruned (some pinnedW) [some tailMsgW]
    (by decide) (by decide)

def ctxE : Context :=
  Context.mk [some pinnedW] (ChatMessage.mk "user" SUMMARY_PROMPT 0)

/-- C4 counterexample: a context with an empty tail, on which a successful
prune round is not a no-op — contrary to the claim, it changes the state and
grows the tail to length 1. -/
theorem C4_empty_tail_not_noop :
    Context.tail ctxE = []
    ∧ Context.prune_context (some "s") 3 ctxE ≠ some ctxE
    ∧ (Option.map (fun ctx1 => (Context.tail ctx1).length)
        (Context.prune_context (some "s") 3 ctxE)) = some 1 := by decide

def ctxWbroken : Context :=
  Context.mk [some pinnedW, none] (ChatMessage.mk "user" SUMMARY_PROMPT 0)

/-- C2: at a concrete context with a one-message tail, when the summarization
service reports a non-retryable failure (get_response returns Python None),
prune_context does NOT propagate a failure: it returns normally, having
deleted the oldest chunk of the tail and inserted None at position 0 of the
tail, so the tail is mutated. -/
theorem C2_prune_failure_mutates_tail :
    Context.prune_context none 5 ctxW = some ctxWbroken
    ∧ Context.tail ctxWbroken ≠ Context.tail ctxW
    ∧ none ∈ ctxWbroken.context_list := by decide

def cm0 : ChatManager := ChatManager.init personality0 0 1 2

/-- C3: at a concrete manager state, when the completion service reports a
non-retryable failure during the main call of submit_prompt, the method
returns Python None as the response but still appends the prompt and the None
response to history, so history is mutated. -/
theorem C3_submit_failure_appends :
    (ChatManager.submit_prompt enc0 1 [] none 3 prompt0 cm0).snd = some none
    ∧ (ChatManager.submit_prompt enc0 1 [] none 3 prompt0 cm0).fst.history
        = cm0.history ++ [some prompt0, none]
    ∧ (ChatManager.submit_prompt enc0 1 [] none 3 prompt0 cm0).fst.history
        ≠ cm0.history := by decide

def summaryPayloadW : String :=
  jsonDumpsList ((ctxW.context_list ++ [some ctxW.summary_message]).filterMap
    (fun o => Option.map ChatMessage.to_dict o))

/-- C7: the message_list value that summarize_context passes to the completion
client is the json.dumps STRING of the [pinned] + tail + [summary_request]
role/content projection — not the list of role/content pairs itself, contrary
to the claim and to the wire contract used by submit_prompt. -/
theorem C7_summarize_sends_string :
    Context.summarize_request ctxW
      = some (MessagesPayload.str summaryPayloadW)
    ∧ ∀ msgs : List RoleContent,
        Context.summarize_request ctxW ≠ some (MessagesPayload.list msgs) := by
  have h1 : Context.summarize_request ctxW
      = some (MessagesPayload.str summaryPayloadW) := by decide
  refine ⟨h1, fun msgs hcontra => ?_⟩
  rw [h1] at hcontra
  exact MessagesPayload.noConfusion (Option.some.inj hcontra)

/-- Coverage of a context message: its role/content pair occurs in history, or
it is a summary built from one of the given summarization texts. -/
def coveredBy (texts : List String) (hist : List (Option ChatMessage))
    (m : ChatMessage) : Prop :=
  pairInHistory hist m
  ∨ ∃ s ∈ texts, ChatMessage.to_dict m = RoleContent.mk "user" (pyStrip s)

/-- Inductive invariant for the history-coverage argument: the context head
and the history head are the pinned message (same pair), and every message in
the context is covered. -/
def HistInv (texts : List String) (cm : ChatManager) : Prop :=
  (∃ c h0, cm.context.context_list.head? = some (some c)
    ∧ cm.history.head? = some (some h0)
    ∧ ChatMessage.to_dict h0 = ChatMessage.to_dict c)
  ∧ ∀ m : ChatMessage, some m ∈ cm.context.context_list →
      coveredBy texts cm.history m

theorem coveredBy_texts_mono {texts texts' : List String}
    {hist : List (Option ChatMessage)} {m : ChatMessage}
    (hsub : ∀ s ∈ texts, s ∈ texts') (h : coveredBy texts hist m) :
    coveredBy texts' hist m := by
  rcases h with h | ⟨s, hs, he⟩
  · exact Or.inl h
  · exact Or.inr ⟨s, hsub s hs, he⟩

theorem coveredBy_hist_append {texts : List String}
    {hist ext : List (Option ChatMessage)} {m : ChatMessage}
    (h : coveredBy texts hist m) : coveredBy texts (hist ++ ext) m := by
  rcases h with ⟨h0, hh, he⟩ | hr
  · exact Or.inl ⟨h0, List.mem_append_left _ hh, he⟩
  · exact Or.inr hr

theorem managerOp_apply_inv (enc : String → Nat) (op : ManagerOp)
    (texts : List String) (cm : ChatManager) (hinv : HistInv texts cm) :
    HistInv (texts ++ ManagerOp.summaryTexts op) (ManagerOp.apply enc cm op) := by
  obtain ⟨⟨c, h0, hch, hhh, hpair⟩, hcov⟩ := hinv
  cases op with
  | reset =>
    dsimp only [ManagerOp.apply, ChatManager.reset_chat, ManagerOp.summaryTexts]
    rw [List.append_nil]
    constructor
    · refine ⟨c, h0, ?_, ?_, hpair⟩
      · dsimp only [Context.reset_context]
        cases hl : cm.context.context_list with
        | nil => rw [hl] at hch; cases hch
        | cons a t => rw [hl] at hch; simpa using hch
      · cases hh : cm.history with
        | nil => rw [hh] at hhh; cases hhh
        | cons b bt => rw [hh] at hhh; simpa using hhh
    · intro m hm
      dsimp only [Context.reset_context] at hm
      cases hl : cm.context.context_list with
      | nil => rw [hl] at hm; cases hm
      | cons a t =>
        rw [hl] at hm hch
        simp at hch
        rw [hch] at hm
        simp at hm
        subst hm
        left
        cases hh : cm.history with
        | nil => rw [hh] at hhh; cases hhh
        | cons b bt =>
          rw [hh] at hhh
          simp at hhh
          refine ⟨h0, ?_, hpair⟩
          simp [hhh]
  | submit fuel responses respMain now prompt =>
    dsimp only [ManagerOp.apply, ChatManager.submit_prompt, ManagerOp.summaryTexts]
    rcases hg : Context.get_prepared_context enc fuel responses now prompt cm.context
      with ⟨ctxr, o⟩
    cases o with
    | none =>
      dsimp only
      have hloop := get_prepared_context_none enc fuel responses now prompt
        cm.context ctxr hg
      constructor
      · refine ⟨c, h0, ?_, hhh, hpair⟩
        have hh2 := prepare_loop_head enc prompt now fuel responses cm.context
          (some c) hch
        rw [hloop] at hh2
        exact hh2
      · intro m hm
        have hm2 : some m ∈ ((Context.prepare_loop enc prompt now fuel responses
            cm.context).fst).context_list := by
          rw [hloop]
          exact hm
        rcases prepare_loop_mem enc prompt now fuel responses cm.context m hm2
          with hold | ⟨s, hs, rfl⟩
        · exact coveredBy_texts_mono (fun s hs => List.mem_append_left _ hs)
            (hcov m hold)
        · exact Or.inr ⟨s, List.mem_append_right _ hs, rfl⟩
    | some jc =>
      dsimp only [ChatManager.update_history]
      obtain ⟨ctx1, ms, hl, hms, hctxr, -⟩ :=
        get_prepared_context_some enc fuel responses now prompt cm.context ctxr jc hg
      constructor
      · refine ⟨c, h0, ?_, head?_append_left hhh, hpair⟩
        have hh2 := prepare_loop_head enc prompt now fuel responses cm.context
          (some c) hch
        rw [hl] at hh2
        rw [hctxr]
        show ((ms ++ [prompt]).map some).head? = some (some c)
        rw [List.map_append]
        exact head?_append_left (by rw [← hms]; exact hh2)
      · intro m hm
        rw [hctxr] at hm
        have hm2 : m ∈ ms ++ [prompt] := by simpa using hm
        rcases List.mem_append.mp hm2 with hmm | hp
        · have hm3 : some m ∈ ((Context.prepare_loop enc prompt now fuel responses
              cm.context).fst).context_list := by
            rw [hl]
            show some m ∈ ctx1.context_list
            rw [hms]
            exact List.mem_map_of_mem some hmm
          rcases prepare_loop_mem enc prompt now fuel responses cm.context m hm3
            with hold | ⟨s, hs, rfl⟩
          · exact coveredBy_texts_mono (fun s hs => List.mem_append_left _ hs)
              (coveredBy_hist_append (hcov m hold))
          · exact Or.inr ⟨s, List.mem_append_right _ hs, rfl⟩
        · have hp2 : m = prompt := by simpa using hp
          subst hp2
          left
          refine ⟨m, ?_, rfl⟩
          refine List.mem_append_right _ ?_
          exact List.mem_cons_self _ _

theorem foldl_managerOps_inv (enc : String → Nat) :
    ∀ (ops : List ManagerOp) (texts : List String) (cm : ChatManager),
      HistInv texts cm →
      HistInv (texts ++ opsSummaryTexts ops) (ops.foldl (ManagerOp.apply enc) cm) := by
  intro ops
  induction ops with
  | nil => intro texts cm h; simpa [opsSummaryTexts] using h
  | cons op rest ih =>
    intro texts cm h
    have h1 := managerOp_apply_inv enc op texts cm h
    have h2 := ih (texts ++ ManagerOp.summaryTexts op) _ h1
    simpa [opsSummaryTexts, List.foldl_cons, List.append_assoc] using h2

theorem histInv_init (personality : Personality) (t1 t2 t3 : Nat) :
    HistInv [] (ChatManager.init personality t1 t2 t3) := by
  constructor
  · exact ⟨Personality.get_personality_prompt personality t1,
      Personality.get_personality_prompt personality t3, rfl, rfl, rfl⟩
  · intro m hm
    simp [ChatManager.init, Context.init] at hm
    subst hm
    left
    exact ⟨Personality.get_personality_prompt personality t3,
      by simp [ChatManager.init], rfl⟩

/-- C8 (amended): at every point in a ChatManager's lifetime, every message
in the context either occurs in history as a role/content pair, or it is a
summary message inserted by a pruning round (role "user", content a stripped
summarization completion) — summaries, unlike prompts, are never appended to
history. -/
theorem C8_history_coverage (enc : String → Nat) (personality : Personality)
    (tPinned tSummary tHistory : Nat) (ops : List ManagerOp) (m : ChatMessage)
    (hm : some m ∈ (runManager enc personality tPinned tSummary tHistory
        ops).context.context_list) :
    (∃ h, some h ∈ (runManager enc personality tPinned tSummary tHistory ops).history
      ∧ ChatMessage.to_dict h = ChatMessage.to_dict m)
    ∨ ∃ s ∈ opsSummaryTexts ops,
        ChatMessage.to_dict m = RoleContent.mk "user" (pyStrip s) := by
  obtain ⟨-, hcov⟩ := foldl_managerOps_inv enc ops []
    (ChatManager.init personality tPinned tSummary tHistory)
    (histInv_init personality tPinned tSummary tHistory)
  have hc := hcov m hm
  rcases hc with ⟨h0, hh, he⟩ | ⟨s, hs, he⟩
  · exact Or.inl ⟨h0, hh, he⟩
  · exact Or.inr ⟨s, by simpa using hs, he⟩

/-- Witness for C8 on the empty trace: the pinned message is covered by
history. -/
theorem C8_history_coverage_witness :
    (∃ h, some h ∈ (runManager enc0 personality0 0 1 2 []).history
      ∧ ChatMessage.to_dict h = ChatMessage.to_dict pinned0)
    ∨ ∃ s ∈ opsSummaryTexts [],
        ChatMessage.to_dict pinned0 = RoleContent.mk "user" (pyStrip s) :=
  C8_history_coverage enc0 personality0 0 1 2 [] pinned0 (by decide)

def enc8 : String → Nat := fun s => 20 * s.length

def personality8 : Personality := Personality.mk "n" "d" "P"

def ops8 : List ManagerOp :=
  [ManagerOp.submit 1 [] (some "R1") 2 (ChatMessage.mk "user" "aaaaaaaaaa" 1),
    ManagerOp.submit 2 [some "S"] (some "R2") 4 (ChatMessage.mk "user" "b" 3)]

/-- C8 counterexample: a concrete reachable ChatManager state (two submits,
the second of which triggers one pruning round) whose context holds the
summary message with pair (user, "S"), while that pair is nowhere in
history — so history is not a superset of the context. -/
theorem C8_summary_not_in_history :
    (RoleContent.mk "user" "S")
      ∈ ((runManager enc8 personality8 0 0 0 ops8).context.context_list.filterMap
          (fun o => Option.map ChatMessage.to_dict o))
    ∧ (RoleContent.mk "user" "S")
      ∉ ((runManager enc8 personality8 0 0 0 ops8).history.filterMap
          (fun o => Option.map ChatMessage.to_dict o)) := by decide
